import Mathlib

/-!
Verification of the bshark compiler/decoder core against its specification.

The Python source is embedded shallowly: the IR dataclasses of
`bshark/compiler/model.py` become Lean structures, the JSON conversion
(`to_json` / `_load_binder_from_json`) becomes pure functions on document
values, the loader's path resolution (`bshark/compiler/loader.py`) becomes a
function over an explicit file-system model, the binder/parcelable translation
of `bshark/compiler/_compiler.py` becomes functions over preprocessed unit
views, and the parcel decoder of `bshark/parser.py` becomes an interpreter
over a little-endian byte stream with an explicit position.
-/

set_option autoImplicit false

namespace BShark

/-! ## IR model (`bshark/compiler/model.py`, `bshark/aidl.py`) -/

/-- `Type` enum of `bshark/aidl.py` (unit kinds). -/
inductive Ty
  | PARCELABLE
  | PARCELABLE_JAVA
  | BINDER
  | SPECIAL
  | UNDEFINED
deriving DecidableEq, Repr

/-- `Type.<member>.name` in Python: the member's name string. -/
def Ty.pyName : Ty → String
  | .PARCELABLE => "PARCELABLE"
  | .PARCELABLE_JAVA => "PARCELABLE_JAVA"
  | .BINDER => "BINDER"
  | .SPECIAL => "SPECIAL"
  | .UNDEFINED => "UNDEFINED"

/-- `Type[name]` in Python: enum lookup by member name (raises `KeyError`
on a miss, modelled as `none`). -/
def Ty.ofPyName : String → Option Ty
  | "PARCELABLE" => some .PARCELABLE
  | "PARCELABLE_JAVA" => some .PARCELABLE_JAVA
  | "BINDER" => some .BINDER
  | "SPECIAL" => some .SPECIAL
  | "UNDEFINED" => some .UNDEFINED
  | _ => none

/-- The `ClassDef.type` field is annotated `Type | str` in `model.py`:
compiled definitions store the enum member's *name* (a string), while
`from_json` stores the enum member itself. -/
inductive TyField
  | enumVal (t : Ty)
  | strVal (s : String)
deriving DecidableEq, Repr

/-- `Direction` enum (`IN = 0`, `OUT = 1`, `INOUT = 2`). -/
inductive Direction
  | IN
  | OUT
  | INOUT
deriving DecidableEq, Repr

/-- The integer value of a `Direction` member (it is an `IntEnum`). -/
def Direction.toNat : Direction → Nat
  | .IN => 0
  | .OUT => 1
  | .INOUT => 2

/-- `Direction(n)` in Python: value lookup, raising `ValueError` on a miss
(modelled as `none`). -/
def Direction.ofNat? : Nat → Option Direction
  | 0 => some .IN
  | 1 => some .OUT
  | 2 => some .INOUT
  | _ => none

/-- `ReturnDef`: a binder method return definition. -/
structure ReturnDef where
  call : String
deriving DecidableEq, Repr

/-- `ParameterDef`: a binder method parameter definition. -/
structure ParameterDef where
  name : String
  call : String
  direction : Direction
deriving DecidableEq, Repr

/-- An entry of `MethodDef.retval`, which is annotated
`t.List[ParameterDef | ReturnDef]` in the source. -/
inductive RetEntry
  | param (p : ParameterDef)
  | ret (r : ReturnDef)
deriving DecidableEq, Repr

/-- `MethodDef`: a binder method with transaction code and partitioned
parameters. -/
structure MethodDef where
  name : String
  tc : Int
  oneway : Bool
  retval : Option (List RetEntry)
  arguments : List ParameterDef
deriving DecidableEq, Repr

/-- `BinderDef`: a compiled binder interface. -/
structure BinderDef where
  qname : String
  type : TyField
  methods : List MethodDef
deriving DecidableEq, Repr

/-- Call-script entries of a `ParcelableDef`: the discriminated union
`FieldDef | ConditionDef | Stop`. `ConditionDef.check` is kept as the raw
constant text; the decoder never interprets it. -/
inductive Entry
  | field (name : String) (call : String)
  | cond (call : String) (check : String) (op : String)
      (consequence : Option (List Entry)) (alternative : Option (List Entry))
  | stop
deriving Repr

/-- `ParcelableDef`: a compiled parcelable. `fields` is `none` before any
field list has been assigned (the dataclass field holds `None`). -/
structure ParcelableDef where
  qname : String
  type : TyField
  fields : Option (List Entry)
deriving Repr

/-! ## JSON round trip (`model.py`: `to_json`, `from_json`,
`_load_binder_from_json`)

JSON documents are modelled structurally: a retval entry document
discriminates on the presence of the `"name"` key, exactly as
`_load_binder_from_json` does. -/

/-- JSON document of one retval entry: `{name, call, direction}` for a
`ParameterDef`, `{call}` for a `ReturnDef`. -/
inductive RetDoc
  | named (name : String) (call : String) (direction : Nat)
  | unnamed (call : String)
deriving DecidableEq, Repr

/-- JSON document of one argument (`ParameterDef`). -/
structure ParamDoc where
  name : String
  call : String
  direction : Nat
deriving DecidableEq, Repr

/-- JSON document of a `MethodDef`. `retval` is `null` or a list. -/
structure MethodDoc where
  name : String
  tc : Int
  oneway : Bool
  retval : Option (List RetDoc)
  arguments : List ParamDoc
deriving DecidableEq, Repr

/-- JSON document of a `BinderDef` (`type` is a string in JSON). -/
structure BinderDoc where
  qname : String
  type : String
  methods : List MethodDoc
deriving DecidableEq, Repr

/-- `dataclasses.asdict` of a retval entry. -/
def RetEntry.toDoc : RetEntry → RetDoc
  | .ret r => .unnamed r.call
  | .param p => .named p.name p.call p.direction.toNat

/-- `dataclasses.asdict` of a `ParameterDef` argument. -/
def ParameterDef.toDoc (p : ParameterDef) : ParamDoc :=
  ⟨p.name, p.call, p.direction.toNat⟩

/-- `dataclasses.asdict` of a `MethodDef`. -/
def MethodDef.toDoc (m : MethodDef) : MethodDoc :=
  ⟨m.name, m.tc, m.oneway, m.retval.map (List.map RetEntry.toDoc),
    m.arguments.map ParameterDef.toDoc⟩

/-- `to_json` applied to a `BinderDef` (`asdict` then `json.dumps`).
`json.dumps` raises `TypeError` when the `type` field holds the raw `Type`
enum member (it is not JSON-serialisable), hence the `Option`. Compiled
definitions store the enum member's name string, for which this succeeds. -/
def BinderDef.toJsonDoc (b : BinderDef) : Option BinderDoc :=
  match b.type with
  | .strVal s => some ⟨b.qname, s, b.methods.map MethodDef.toDoc⟩
  | .enumVal _ => none

/-- One retval entry parsed back from JSON, discriminating on the presence
of the `"name"` key. Fails when the stored direction integer is not a
`Direction` value. -/
def loadRetDoc : RetDoc → Option RetEntry
  | .named n c d => (Direction.ofNat? d).map (fun dir => .param ⟨n, c, dir⟩)
  | .unnamed c => some (.ret ⟨c⟩)

/-- The retval loop of `_load_binder_from_json`. The source executes

    for rval in method["retval"]:
        mdef.retval = []
        ... mdef.retval.append(...)

that is, each iteration first resets `retval` to a fresh empty list and then
appends the one entry just parsed, so the accumulator of the previous
iteration is discarded. -/
def loadRetvalLoop (acc : Option (List RetEntry)) :
    List RetDoc → Option (Option (List RetEntry))
  | [] => some acc
  | rval :: rest => do
      let e ← loadRetDoc rval
      loadRetvalLoop (some [e]) rest

/-- One method parsed back from JSON (`_load_binder_from_json` body for a
single `method` document). The `if method["retval"]:` guard is falsy for
both `null` and the empty list. -/
def loadMethodFromJson (m : MethodDoc) : Option MethodDef := do
  let retval ←
    match m.retval with
    | none => pure none
    | some l => if l.isEmpty then pure none else loadRetvalLoop none l
  let args ← m.arguments.mapM fun a =>
    (Direction.ofNat? a.direction).map fun d => ParameterDef.mk a.name a.call d
  pure ⟨m.name, m.tc, m.oneway, retval, args⟩

/-- `_load_binder_from_json`: builds a `BinderDef` whose `type` field holds
the `Type.BINDER` enum member. -/
def loadBinderFromJson (doc : BinderDoc) : Option BinderDef := do
  let methods ← doc.methods.mapM loadMethodFromJson
  pure ⟨doc.qname, .enumVal .BINDER, methods⟩

/-- `from_json` restricted to documents whose `type` names `BINDER`
(the dispatch in `from_json` sends those to `_load_binder_from_json`;
unknown type names raise). -/
def fromJsonBinder (doc : BinderDoc) : Option BinderDef :=
  match Ty.ofPyName doc.type with
  | some .BINDER => loadBinderFromJson doc
  | _ => none

/-- `from_json(to_json(b))` for a binder definition. -/
def roundTripBinder (b : BinderDef) : Option BinderDef :=
  b.toJsonDoc.bind fromJsonBinder

/-! ## Loader path resolution (`bshark/compiler/loader.py`)

The file system is modelled as the list of existing absolute paths; a
loader carries its ordered search path of roots. `os.path.join(root, rel)`
is modelled as `root ++ "/" ++ rel`. -/

/-- Errors surfaced by the loader's path resolution. -/
inductive LoadErr
  | fileNotFound (rpath : String)
deriving DecidableEq, Repr

/-- `os.path.exists` over the file-system model. -/
def pathExists (fs : List String) (p : String) : Bool := fs.contains p

/-- `BaseLoader.to_absolute`: scan the search path in order and return the
first root under which the relative path exists; raise `FileNotFoundError`
when no root matches. -/
def toAbsolute (fs : List String) (roots : List String) (rpath : String) :
    Except LoadErr String :=
  match roots with
  | [] => .error (.fileNotFound rpath)
  | root :: rest =>
      if pathExists fs (root ++ "/" ++ rpath) then .ok (root ++ "/" ++ rpath)
      else toAbsolute fs rest rpath

/-- What `import_` resolves a qualified name to before loading: either the
directory of a wildcard import or the single unit file handed to
`_import_one`. -/
inductive ImportTarget
  | wildcardDir (rpath : String)
  | unitFile (rpath : String)
deriving DecidableEq, Repr

/-- `"/".join(parts)` -/
def joinSlash (parts : List String) : String := String.intercalate "/" parts

/-- Helper for `pySplitChar`: walk the characters, cutting at the
separator. -/
def pySplitCharGo (sep : Char) : List Char → List Char → List String
  | [], acc => [String.mk acc.reverse]
  | c :: rest, acc =>
      if c = sep then String.mk acc.reverse :: pySplitCharGo sep rest []
      else pySplitCharGo sep rest (c :: acc)

/-- Python's `str.split(sep)` for a one-character separator (as used with
`"."` and `":"` in the source): split at every occurrence, keeping empty
pieces. -/
def pySplitChar (sep : Char) (s : String) : List String :=
  pySplitCharGo sep s.data []

/-- Suffix test on character lists (for `str.endswith`). -/
def charsStartWith : List Char → List Char → Bool
  | _, [] => true
  | [], _ :: _ => false
  | a :: as, b :: bs => a = b && charsStartWith as bs

/-- Python's `str.endswith`. -/
def pyEndsWith (s suffixStr : String) : Bool :=
  charsStartWith s.data.reverse suffixStr.data.reverse

/-- `x[0].isupper()` on a qualified-name component. -/
def startsUpper (s : String) : Bool :=
  match s.data with
  | [] => false
  | c :: _ => c.isUpper

/-- The extension loop of `BaseLoader.import_`:

    for ext in (".aidl", ".java", ".json"):
        full_rpath = f"{rel_path}{ext}"
        abs_path = self.to_absolute(full_rpath)
        if os.path.exists(abs_path):
            return self._import_one(full_rpath)

`to_absolute` itself raises `FileNotFoundError` whenever the candidate
path exists under no root, so a raised error propagates out of the loop;
falling off the loop returns `None`. -/
def importExtLoop (fs roots : List String) (relPath : String) :
    List String → Except LoadErr (Option String)
  | [] => .ok none
  | ext :: rest => do
      let fullRpath := relPath ++ ext
      let absPath ← toAbsolute fs roots fullRpath
      if pathExists fs absPath then .ok (some fullRpath)
      else importExtLoop fs roots relPath rest

/-- `BaseLoader.import_` up to the point where the resolved file (or
wildcard directory) is handed to `_import_one` / `_import_wildcard`:
split the qualified name, detect a wildcard, compute the relative path by
stripping all but one leading-uppercase component, then run the extension
loop. -/
def importResolve (fs roots : List String) (qname : String) :
    Except LoadErr (Option ImportTarget) :=
  let parts := pySplitChar '.' qname
  if parts.getLast? = some "*" then
    .ok (some (.wildcardDir (joinSlash (parts.dropLast))))
  else
    let classes := (parts.filter startsUpper).length
    let relPath :=
      if classes = 1 then joinSlash parts
      else if classes = 0 then joinSlash (parts.take 1)
      else joinSlash (parts.take (parts.length - (classes - 1)))
    (importExtLoop fs roots relPath [".aidl", ".java", ".json"]).map
      (Option.map ImportTarget.unitFile)

/-- `filteraidl` (`bshark/compiler/util.py`): keep the file names ending in
`.aidl`. -/
def filteraidl (files : List String) : List String :=
  files.filter (fun f => pyEndsWith f ".aidl")

/-- `BaseLoader._import_wildcard` over a directory listing, parameterised
by `load_aidl` (whose parsing internals are out of scope here):

    for fname in filteraidl(os.listdir(abs_dir_path)):
        result.extend(self.load_aidl(os.path.join(rpath, fname)))

Only names passing `filteraidl` are ever loaded; every loaded file goes
through the AIDL loader. -/
def importWildcard {α : Type} (loadAidl : String → List α) (rpath : String)
    (listing : List String) : List α :=
  (filteraidl listing).flatMap (fun fname => loadAidl (rpath ++ "/" ++ fname))

/-! ## Compiler (`bshark/compiler/_compiler.py`)

The tree-sitter AST is out of scope (an external collaborator per the
spec); the compiler is embedded over the preprocessed views it actually
consumes: for a binder, the method declarations with their return-type
text and parameters (each parameter carrying the token kind of its first
child and the call string that `TypeHandler.call_of` resolves its type
to); for a Java parcelable, the result of the statement walk
`_parse_parcelable_java` (with `none` standing for "no creator and no
parcel constructor", which raises `UnsupportedTypeError`). -/

/-- A binder method parameter as `as_binder` consumes it. `firstTokenType`
is `param_decl.child(0).type`; `tyCall` is `TypeHandler.call_of` applied to
the parameter's type node. -/
structure BinderParamNode where
  name : String
  firstTokenType : String
  tyCall : String
deriving DecidableEq, Repr

/-- A binder method declaration as `as_binder` consumes it. `rtypeText` is
the return-type node's text; `rtypeCall` is `TypeHandler.call_of` applied
to the return-type node. -/
structure BinderMethodNode where
  name : String
  rtypeText : String
  rtypeCall : String
  params : List BinderParamNode
deriving DecidableEq, Repr

/-- A `Unit` after preprocessing, as the `Compiler` consumes it. -/
structure CompUnit where
  qname : String
  type : Ty
  binderMethods : List BinderMethodNode
  javaWalk : Option (List Entry)

/-- Errors raised while compiling one unit. -/
inductive CompErr
  | typeError
  | unsupportedType
deriving DecidableEq, Repr

/-- `get_parameter_modifier` (`bshark/aidl.py`): the first child token when
it is one of `in`/`out`/`inout`, else the default `"in"`. -/
def getParameterModifier (p : BinderParamNode) : String :=
  if p.firstTokenType = "in" ∨ p.firstTokenType = "out" ∨ p.firstTokenType = "inout"
  then p.firstTokenType else "in"

/-- `Direction[param_modifier.upper()]`. -/
def directionOfModifier (m : String) : Direction :=
  if m = "out" then .OUT else if m = "inout" then .INOUT else .IN

/-- The parameter loop of `as_binder` for one method. Mirrors:

    if is_out:
        if is_oneway:
            mdef.retval = []
        mdef.retval.append(pdef)
    if param_modifier in ("in", "inout"):
        mdef.arguments.append(pdef)

Note that a oneway method's `retval` is reset to a fresh empty list on
*every* `out`/`inout` parameter before the append. -/
def asBinderParamStep (isOneway : Bool) (mdef : MethodDef) (p : BinderParamNode) :
    MethodDef :=
  let paramModifier := getParameterModifier p
  let isOut := paramModifier = "out" ∨ paramModifier = "inout"
  let pdef : ParameterDef := ⟨p.name, p.tyCall, directionOfModifier paramModifier⟩
  let mdef :=
    if isOut then
      { mdef with
        retval :=
          if isOneway then some [RetEntry.param pdef]
          else some (mdef.retval.getD [] ++ [RetEntry.param pdef]) }
    else mdef
  if paramModifier = "in" ∨ paramModifier = "inout" then
    { mdef with arguments := mdef.arguments ++ [pdef] }
  else mdef

/-- One method of `as_binder`: transaction code `i` is the 1-based source
position; `oneway` iff the return type reads `void`; a non-oneway method's
`retval` starts as `[ReturnDef (call_of rtype)]`, a oneway method's as
`None`; then every parameter is folded in. -/
def asBinderMethod (i : Nat) (m : BinderMethodNode) : MethodDef :=
  let isOneway := m.rtypeText = "void"
  let mdef : MethodDef :=
    { name := m.name
      tc := (i : Int)
      oneway := isOneway
      retval := if isOneway then none else some [RetEntry.ret ⟨m.rtypeCall⟩]
      arguments := [] }
  m.params.foldl (asBinderParamStep isOneway) mdef

/-- Insertion into a list kept sorted by ascending `tc`
(for `sorted(method_defs, key=lambda x: x.tc)`). -/
def insertByTc (m : MethodDef) : List MethodDef → List MethodDef
  | [] => [m]
  | x :: xs => if m.tc ≤ x.tc then m :: x :: xs else x :: insertByTc m xs

/-- `sorted(·, key=lambda x: x.tc)`. -/
def sortByTc (l : List MethodDef) : List MethodDef :=
  l.foldr insertByTc []

/-- `Compiler.as_binder`: refuse non-binder units, then translate each
method with its 1-based index as transaction code and sort by `tc`. -/
def asBinder (u : CompUnit) : Except CompErr BinderDef :=
  if u.type ≠ .BINDER then .error .typeError
  else
    let methodDefs := u.binderMethods.enum.map
      (fun mi => asBinderMethod (mi.1 + 1) mi.2)
    .ok ⟨u.qname, .strVal Ty.BINDER.pyName, sortByTc methodDefs⟩

/-- `Compiler.as_parcelable`: refuse units that are neither `PARCELABLE`
nor `PARCELABLE_JAVA`; build the definition with `fields = None`; only for
`PARCELABLE_JAVA` run the entry-point walk (raising
`UnsupportedTypeError` when no creator and no parcel constructor exists)
and assign its result to `fields`. A `PARCELABLE` unit is returned with
`fields` still unset. -/
def asParcelable (u : CompUnit) : Except CompErr ParcelableDef :=
  if ¬(u.type = .PARCELABLE ∨ u.type = .PARCELABLE_JAVA) then .error .typeError
  else
    let pdef : ParcelableDef := ⟨u.qname, .strVal u.type.pyName, none⟩
    if u.type = .PARCELABLE_JAVA then
      match u.javaWalk with
      | none => .error .unsupportedType
      | some fields => .ok { pdef with fields := some fields }
    else .ok pdef

/-- A compiled definition. -/
inductive CompiledDef
  | bdef (b : BinderDef)
  | pdef (p : ParcelableDef)
deriving Repr

/-- `Compiler.compile`: dispatch on the unit type; only `PARCELABLE_JAVA`
and `BINDER` are supported, every other type raises `TypeError`. -/
def compileUnit (u : CompUnit) : Except CompErr CompiledDef :=
  match u.type with
  | .PARCELABLE_JAVA => (asParcelable u).map .pdef
  | .BINDER => (asBinder u).map .bdef
  | _ => .error .typeError

/-! ## Byte stream (`io.BytesIO` wrapped by `Parser`) -/

/-- A little-endian byte stream with a single read position (the Parser
holds one `io.BytesIO`). Each element of `data` is one byte (0..255). -/
structure PStream where
  data : List Nat
  pos : Nat
deriving DecidableEq, Repr

/-- Read exactly `n` bytes; a short read makes the caller's struct unpack
raise, modelled as `none`. -/
def PStream.readBytes (s : PStream) (n : Nat) : Option (List Nat × PStream) :=
  if s.pos + n ≤ s.data.length then
    some ((s.data.drop s.pos).take n, ⟨s.data, s.pos + n⟩)
  else none

/-- `_align(n, context)`: if the position is not a multiple of `n`, read
(and discard) `n - pos % n` bytes. `BytesIO.read` stops at end of data,
hence the `min`. -/
def PStream.skipAlign (s : PStream) (n : Nat) : PStream :=
  let idx := s.pos % n
  if idx = 0 then s
  else ⟨s.data, min (s.pos + (n - idx)) s.data.length⟩

/-- Little-endian value of a byte list. -/
def leNat : List Nat → Nat
  | [] => 0
  | b :: rest => b + 256 * leNat rest

/-- Two's-complement reinterpretation of an unsigned `bits`-bit value. -/
def toSigned (bits : Nat) (u : Nat) : Int :=
  if u < 2 ^ (bits - 1) then (u : Int) else (u : Int) - 2 ^ bits

/-! ## Primitive reads (`bshark/parser.py`, `Parser` methods) -/

/-- `uint32.unpack_single`. -/
def readU32 (s : PStream) : Option (Nat × PStream) :=
  (s.readBytes 4).map (fun p => (leNat p.1, p.2))

/-- `uint64.unpack_single`. -/
def readU64 (s : PStream) : Option (Nat × PStream) :=
  (s.readBytes 8).map (fun p => (leNat p.1, p.2))

/-- `Parser.readInt`: signed 32-bit little-endian. -/
def readInt (s : PStream) : Option (Int × PStream) :=
  (s.readBytes 4).map (fun p => (toSigned 32 (leNat p.1), p.2))

/-- `Parser.readUInt`. -/
def readUInt (s : PStream) : Option (Nat × PStream) := readU32 s

/-- `Parser.readLong`: signed 64-bit little-endian. -/
def readLong (s : PStream) : Option (Int × PStream) :=
  (s.readBytes 8).map (fun p => (toSigned 64 (leNat p.1), p.2))

/-- `Parser.readULong`. -/
def readULong (s : PStream) : Option (Nat × PStream) := readU64 s

/-- `Parser.readShort`: signed 16-bit read, then pad to a 4-byte
boundary. -/
def readShort (s : PStream) : Option (Int × PStream) :=
  (s.readBytes 2).map (fun p => (toSigned 16 (leNat p.1), p.2.skipAlign 4))

/-- `Parser.readByte`: one byte, then pad to a 4-byte boundary. -/
def readByte (s : PStream) : Option (Nat × PStream) :=
  (s.readBytes 1).map (fun p => (leNat p.1, p.2.skipAlign 4))

/-- `Parser.readByteUnaligned`: one byte, no padding. -/
def readByteUnaligned (s : PStream) : Option (Nat × PStream) :=
  (s.readBytes 1).map (fun p => (leNat p.1, p.2))

/-- `Parser.readChar`: `chr(readInt())`; `chr` raises for codepoints
outside 0..0x10FFFF. The result carries the codepoint. -/
def readChar (s : PStream) : Option (Nat × PStream) :=
  (readInt s).bind fun p =>
    if 0 ≤ p.1 ∧ p.1 < 0x110000 then some (p.1.toNat, p.2) else none

/-- `Parser.readBoolean`: `bool(readInt())`. -/
def readBoolean (s : PStream) : Option (Bool × PStream) :=
  (readInt s).map (fun p => (p.1 ≠ 0, p.2))

/-- UTF-16LE code units of a byte list (pairs, little-endian). -/
def utf16leUnits : List Nat → List Nat
  | b0 :: b1 :: rest => (b0 + 256 * b1) :: utf16leUnits rest
  | _ => []

/-- Strict UTF-16 decoding of a code-unit list: plain BMP units become
characters, a high surrogate must pair with a low surrogate, anything
else fails (Python's strict `utf-16-le` codec raises). -/
def utf16Decode : List Nat → Option (List Char)
  | [] => some []
  | u :: rest =>
      if u < 0xD800 ∨ 0xE000 ≤ u then
        (utf16Decode rest).map (fun cs => Char.ofNat u :: cs)
      else if u < 0xDC00 then
        match rest with
        | u2 :: rest2 =>
            if 0xDC00 ≤ u2 ∧ u2 < 0xE000 then
              (utf16Decode rest2).map
                (fun cs => Char.ofNat (0x10000 + (u - 0xD800) * 0x400 + (u2 - 0xDC00)) :: cs)
            else none
        | [] => none
      else none

/-- `str.strip("\x00")`: drop NUL characters from both ends. -/
def stripNulChars (cs : List Char) : List Char :=
  ((cs.dropWhile (fun c => c = Char.ofNat 0)).reverse.dropWhile
    (fun c => c = Char.ofNat 0)).reverse

/-- `Parser.readString` / `string16`: the byte count is
`uint32.unpack_single() * 2 + 2` (the length prefix is consumed while
computing the size), that many bytes are read and decoded as UTF-16LE,
NULs are stripped from both ends, and the position is padded to a 4-byte
boundary. -/
def readString (s : PStream) : Option (String × PStream) := do
  let (lenBytes, s1) ← s.readBytes 4
  let (strBytes, s2) ← s1.readBytes (leNat lenBytes * 2 + 2)
  let cs ← utf16Decode (utf16leUnits strBytes)
  pure (String.mk (stripNulChars cs), s2.skipAlign 4)

/-- One byte of a UTF-8 continuation. -/
def utf8Cont (b : Nat) : Bool := 0x80 ≤ b ∧ b < 0xC0

/-- Strict UTF-8 decoding (RFC 3629 table: overlong forms, surrogates and
values above 0x10FFFF are rejected, as Python's strict codec does). -/
def utf8Decode : List Nat → Option (List Char)
  | [] => some []
  | b0 :: rest =>
      if b0 < 0x80 then
        (utf8Decode rest).map (fun cs => Char.ofNat b0 :: cs)
      else
        match rest with
        | [] => none
        | b1 :: rest1 =>
            if 0xC2 ≤ b0 ∧ b0 ≤ 0xDF then
              if utf8Cont b1 then
                (utf8Decode rest1).map
                  (fun cs => Char.ofNat ((b0 - 0xC0) * 64 + (b1 - 0x80)) :: cs)
              else none
            else
              match rest1 with
              | [] => none
              | b2 :: rest2 =>
                  if 0xE0 ≤ b0 ∧ b0 ≤ 0xEF then
                    if (if b0 = 0xE0 then 0xA0 ≤ b1 ∧ b1 ≤ 0xBF
                        else if b0 = 0xED then 0x80 ≤ b1 ∧ b1 ≤ 0x9F
                        else utf8Cont b1) ∧ utf8Cont b2 then
                      (utf8Decode rest2).map
                        (fun cs => Char.ofNat
                          ((b0 - 0xE0) * 4096 + (b1 - 0x80) * 64 + (b2 - 0x80)) :: cs)
                    else none
                  else
                    match rest2 with
                    | [] => none
                    | b3 :: rest3 =>
                        if 0xF0 ≤ b0 ∧ b0 ≤ 0xF4 then
                          if (if b0 = 0xF0 then 0x90 ≤ b1 ∧ b1 ≤ 0xBF
                              else if b0 = 0xF4 then 0x80 ≤ b1 ∧ b1 ≤ 0x8F
                              else utf8Cont b1) ∧ utf8Cont b2 ∧ utf8Cont b3 then
                            (utf8Decode rest3).map
                              (fun cs => Char.ofNat
                                ((b0 - 0xF0) * 262144 + (b1 - 0x80) * 4096
                                  + (b2 - 0x80) * 64 + (b3 - 0x80)) :: cs)
                          else none
                        else none

/-- `Parser.readString8` / `string8`: `int32` byte count, that many UTF-8
bytes (a negative count makes `BytesIO.read` consume everything left),
then one terminator byte is skipped and the position padded to 4. -/
def readString8 (s : PStream) : Option (String × PStream) := do
  let (n, s1) ← readInt s
  let (strBytes, s2) ←
    if n < 0 then
      some (s1.data.drop s1.pos, (⟨s1.data, s1.data.length⟩ : PStream))
    else s1.readBytes n.toNat
  let cs ← utf8Decode strBytes
  let s3 : PStream := ⟨s2.data, min (s2.pos + 1) s2.data.length⟩
  pure (String.mk cs, s3.skipAlign 4)

/-- The `flat_binder_object` fields read by `Parser.readStrongBinder`. -/
structure FlatBinder where
  btype : Nat
  flags : Nat
  handle : Nat
  cookie : Nat
  status : Option Nat
deriving DecidableEq, Repr

/-- `Parser.readStrongBinder`: `type`, `flags` as u32, `handle`, `cookie`
as u64, and a trailing `status` u32 exactly when
`android_version > 9`. -/
def readStrongBinder (androidVersion : Nat) (s : PStream) :
    Option (FlatBinder × PStream) := do
  let (ty, s1) ← readU32 s
  let (flags, s2) ← readU32 s1
  let (handle, s3) ← readU64 s2
  let (cookie, s4) ← readU64 s3
  if androidVersion > 9 then
    let (status, s5) ← readU32 s4
    pure (⟨ty, flags, handle, cookie, some status⟩, s5)
  else
    pure (⟨ty, flags, handle, cookie, none⟩, s4)

/-- `n` repetitions of an element read (the list comprehension
`[func(arg, context) for _ in range(size)]`). -/
def readN {α : Type} (f : PStream → Option (α × PStream)) :
    Nat → PStream → Option (List α × PStream)
  | 0, s => some ([], s)
  | k + 1, s => do
      let (x, s') ← f s
      let (xs, s'') ← readN f k s'
      pure (x :: xs, s'')

/-- `Parser._read_vector`: a signed 32-bit length `size` followed by
`range(size)` element reads (so a negative length yields the empty list
with nothing consumed past the prefix). -/
def readVector {α : Type} (f : PStream → Option (α × PStream)) (s : PStream) :
    Option (List α × PStream) := do
  let (size, s1) ← readInt s
  readN f size.toNat s1

/-! ## Call-script interpreter (`Parser.read_data` / `Parser.read_object`
/ `Parser.readParcelable` / `Parser.readParcelableVector`)

Python exceptions are modelled by `DErr` (`StopIteration` is caught by the
iteration loops; everything else — unknown verbs, `TypeError`,
`KeyError`, `NameError`, struct unpack failures — aborts the transaction).
Recursion through cached parcelable definitions is not structural, so the
interpreter carries fuel; exhausted fuel is a fatal abort. -/

/-- Decoder-side error: `StopIteration` or any fatal exception. -/
inductive DErr
  | stopIteration
  | fatal
deriving DecidableEq, Repr

/-- A decoded Python value. Floats are carried as their raw IEEE-754 bit
patterns; `chr` results carry the codepoint. -/
inductive Value
  | vint (i : Int)
  | vstr (s : String)
  | vbool (b : Bool)
  | vchar (cp : Nat)
  | vf32 (bits : Nat)
  | vf64 (bits : Nat)
  | vbinder (fb : FlatBinder)
  | vlist (l : List Value)
  | vobj (ctx : List (String × Value))
  | vnone
deriving Repr

/-- Python truthiness (`bool(val)`) of a decoded value: nonzero numbers,
nonempty strings/lists/dicts. A `chr` result is a one-character string,
hence truthy; a strong-binder `Context` always has entries, hence truthy;
floats are falsy exactly on ±0.0 (bit patterns 0 and sign-bit-only). -/
def Value.truthy : Value → Bool
  | .vint i => i ≠ 0
  | .vstr s => s ≠ ""
  | .vbool b => b
  | .vchar _ => true
  | .vf32 bits => ¬(bits = 0 ∨ bits = 0x80000000)
  | .vf64 bits => ¬(bits = 0 ∨ bits = 0x8000000000000000)
  | .vbinder _ => true
  | .vlist l => ¬l.isEmpty
  | .vobj ctx => ¬ctx.isEmpty
  | .vnone => false

/-- The result of one `read_data` call: a plain value, or the tuple of
`(name, value)` pairs produced for a `ConditionDef`. -/
inductive RDVal
  | single (v : Value)
  | pairs (l : List (String × Value))
deriving Repr

/-- A decoded object (`caterpillar` `Context`), as an insertion-ordered
dictionary. -/
abbrev Ctx := List (String × Value)

/-- Dictionary assignment `result[name] = v`: overwrite in place or append. -/
def ctxSet (acc : Ctx) (kv : String × Value) : Ctx :=
  if acc.any (fun p => p.1 = kv.1) then
    acc.map (fun p => if p.1 = kv.1 then (p.1, kv.2) else p)
  else acc ++ [kv]

/-- `field.name`: only a `FieldDef` has a `name` attribute; accessing it
on a `ConditionDef` or `Stop` raises `AttributeError`. -/
def entryName : Entry → Option String
  | .field n _ => some n
  | _ => none

/-- Lift a primitive read: a raised struct/codec error is fatal. -/
def ofOption {α : Type} : Option α → Except DErr α
  | some a => .ok a
  | none => .error .fatal

/-- `call.split(":")` as used by `read_data`: untyped verbs pass through,
`verb:name` splits into the verb and its type argument, and more than one
colon makes the 2-tuple unpacking raise. -/
def splitCall (call : String) : Except DErr (String × Option String) :=
  if pySplitChar ':' call = [call] then .ok (call, none)
  else
    match pySplitChar ':' call with
    | [c, n] => .ok (c, some n)
    | _ => .error .fatal

/-- The decoder's environment: the configured Android version and the
loader's unit cache (`loader.ucache`), keyed by qualified name. -/
structure DecodeEnv where
  androidVersion : Nat
  cache : String → Option ParcelableDef

/-- The primitive-verb table: every `Parser` method that takes no type
argument. `getattr` finds these by name; calling one with a `name=`
keyword raises `TypeError`, which the dispatcher accounts for. -/
def primTable (env : DecodeEnv) :
    String → Option (PStream → Option (Value × PStream))
  | "readInt" => some fun s => (readInt s).map (fun p => (.vint p.1, p.2))
  | "readUInt" => some fun s => (readUInt s).map (fun p => (.vint (p.1 : Int), p.2))
  | "readFloat" => some fun s => (readU32 s).map (fun p => (.vf32 p.1, p.2))
  | "readDouble" => some fun s => (readU64 s).map (fun p => (.vf64 p.1, p.2))
  | "readLong" => some fun s => (readLong s).map (fun p => (.vint p.1, p.2))
  | "readULong" => some fun s => (readULong s).map (fun p => (.vint (p.1 : Int), p.2))
  | "readShort" => some fun s => (readShort s).map (fun p => (.vint p.1, p.2))
  | "readChar" => some fun s => (readChar s).map (fun p => (.vchar p.1, p.2))
  | "readString" => some fun s => (readString s).map (fun p => (.vstr p.1, p.2))
  | "readString8" => some fun s => (readString8 s).map (fun p => (.vstr p.1, p.2))
  | "readBoolean" => some fun s => (readBoolean s).map (fun p => (.vbool p.1, p.2))
  | "readByte" => some fun s => (readByte s).map (fun p => (.vint (p.1 : Int), p.2))
  | "readByteUnaligned" =>
      some fun s => (readByteUnaligned s).map (fun p => (.vint (p.1 : Int), p.2))
  | "readStrongBinder" =>
      some fun s =>
        (readStrongBinder env.androidVersion s).map (fun p => (.vbinder p.1, p.2))
  | "readByteVector" =>
      some fun s => (readVector readByteUnaligned s).map
        (fun p => (.vlist (p.1.map (fun b => .vint (b : Int))), p.2))
  | "readIntVector" =>
      some fun s => (readVector readInt s).map
        (fun p => (.vlist (p.1.map .vint), p.2))
  | "readLongVector" =>
      some fun s => (readVector readLong s).map
        (fun p => (.vlist (p.1.map .vint), p.2))
  | "readFloatVector" =>
      some fun s => (readVector readU32 s).map
        (fun p => (.vlist (p.1.map .vf32), p.2))
  | "readDoubleVector" =>
      some fun s => (readVector readU64 s).map
        (fun p => (.vlist (p.1.map .vf64), p.2))
  | "readStringVector" =>
      some fun s => (readVector readString s).map
        (fun p => (.vlist (p.1.map .vstr), p.2))
  | "readBooleanVector" =>
      some fun s => (readVector readBoolean s).map
        (fun p => (.vlist (p.1.map .vbool), p.2))
  | "readCharVector" =>
      some fun s => (readVector readChar s).map
        (fun p => (.vlist (p.1.map .vchar), p.2))
  | _ => none

mutual

/-- `Parser.read_data`: split the call string, dispatch the verb, then
return the value directly for a `FieldDef`/`ParameterDef`, raise
`StopIteration` for a `Stop`, and for a `ConditionDef` pick
`consequence` when the value just read is truthy and `alternative`
otherwise (the stored `check` and `op` are never consulted), decoding the
chosen branch into `(name, value)` pairs. Iterating an absent branch
raises `TypeError`. -/
def readDataD (env : DecodeEnv) :
    Nat → Entry → PStream → Except DErr (RDVal × PStream)
  | 0, _, _ => .error .fatal
  | fuel + 1, e, s =>
      match e with
      | .stop => .error .stopIteration
      | .field _ call => do
          let (verb, tyArg) ← splitCall call
          let (v, s') ← dispatchVerb env fuel verb tyArg s
          .ok (.single v, s')
      | .cond call _ _ cons alt => do
          let (verb, tyArg) ← splitCall call
          let (v, s') ← dispatchVerb env fuel verb tyArg s
          match (if v.truthy then cons else alt) with
          | none => .error .fatal
          | some fields => do
              let (pairs, s'') ← condLoop env fuel fields s'
              .ok (.pairs pairs, s'')

/-- The branch comprehension of `read_data` for a `ConditionDef`:
`[(field.name, read_data(field)) for field in target]`. `field.name` on a
nested `ConditionDef` or `Stop` raises `AttributeError`. -/
def condLoop (env : DecodeEnv) :
    Nat → List Entry → PStream → Except DErr (List (String × Value) × PStream)
  | _, [], s => .ok ([], s)
  | 0, _ :: _, _ => .error .fatal
  | fuel + 1, f :: rest, s =>
      match entryName f with
      | none => .error .fatal
      | some nm =>
          match readDataD env fuel f s with
          | .error e => .error e
          | .ok (.single v, s') => do
              let (tail, s'') ← condLoop env fuel rest s'
              .ok ((nm, v) :: tail, s'')
          | .ok (.pairs _, _) => .error .fatal

/-- Verb dispatch (`getattr(self, call)`): primitive verbs reject a type
argument (`TypeError` on the unexpected keyword), `readParcelable` and
`readParcelableVector` accept one, anything else is an unknown call. -/
def dispatchVerb (env : DecodeEnv) :
    Nat → String → Option String → PStream → Except DErr (Value × PStream)
  | 0, _, _, _ => .error .fatal
  | fuel + 1, verb, tyArg, s =>
      match primTable env verb with
      | some f =>
          if tyArg.isSome then .error .fatal else ofOption (f s)
      | none =>
          match verb with
          | "readParcelable" => readParcelableD env fuel tyArg s
          | "readParcelableVector" =>
              match tyArg with
              | none => .error .fatal
              | some nm => do
                  let (l, s') ← readParcelableVectorD env fuel nm s
                  .ok (.vlist l, s')
          | _ => .error .fatal

/-- `Parser.readParcelable`: a 32-bit status; any status other than 1
returns `None` with nothing further consumed; otherwise the qualified
name is the bound type argument or, when that is absent or empty, a
string read from the stream; the name must be cached (`KeyError`
otherwise) and its field list is decoded as a nested object. -/
def readParcelableD (env : DecodeEnv) :
    Nat → Option String → PStream → Except DErr (Value × PStream)
  | 0, _, _ => .error .fatal
  | fuel + 1, tyArg, s => do
      let (status, s1) ← ofOption (readInt s)
      if status ≠ 1 then .ok (.vnone, s1)
      else do
        let (name, s2) ←
          match tyArg with
          | some n =>
              if n = "" then (ofOption (readString s1)).map (fun p => p)
              else (.ok (n, s1) : Except DErr (String × PStream))
          | none => ofOption (readString s1)
        match env.cache name with
        | none => .error .fatal
        | some pdef =>
            match pdef.fields with
            | none => .error .fatal
            | some fields => do
                let (ctx, s3) ← readObjectLoop env fuel fields s2 [] none
                .ok (.vobj ctx, s3)

/-- `Parser.readParcelableVector`: a signed 32-bit length, then that many
`readParcelable` element reads (none for a negative length). -/
def readParcelableVectorD (env : DecodeEnv) :
    Nat → String → PStream → Except DErr (List Value × PStream)
  | 0, _, _ => .error .fatal
  | fuel + 1, nm, s => do
      let (size, s1) ← ofOption (readInt s)
      parcelableN env fuel nm size.toNat s1

/-- The element loop of `readParcelableVector`. -/
def parcelableN (env : DecodeEnv) :
    Nat → String → Nat → PStream → Except DErr (List Value × PStream)
  | _, _, 0, s => .ok ([], s)
  | 0, _, _ + 1, _ => .error .fatal
  | fuel + 1, nm, k + 1, s => do
      let (v, s') ← readParcelableD env fuel (some nm) s
      let (vs, s'') ← parcelableN env fuel nm k s'
      .ok (v :: vs, s'')

/-- `Parser.read_object`: fold the field list into a `Context`, breaking
on `StopIteration`. The source stores `result[field.name] = v` — the
loop variable of the *tuple* branch — instead of `val`, so a plain value
is recorded under the last value of the most recent tuple (and raises
`NameError` when no tuple has been seen yet); `lastV` threads that
variable. -/
def readObjectLoop (env : DecodeEnv) :
    Nat → List Entry → PStream → Ctx → Option Value → Except DErr (Ctx × PStream)
  | _, [], s, acc, _ => .ok (acc, s)
  | 0, _ :: _, _, _, _ => .error .fatal
  | fuel + 1, f :: rest, s, acc, lastV =>
      match readDataD env fuel f s with
      | .error .stopIteration => .ok (acc, s)
      | .error .fatal => .error .fatal
      | .ok (.pairs l, s') =>
          readObjectLoop env fuel rest s' (l.foldl ctxSet acc)
            (match l.getLast? with
             | some kv => some kv.2
             | none => lastV)
      | .ok (.single _, s') =>
          match entryName f, lastV with
          | some nm, some v => readObjectLoop env fuel rest s' (ctxSet acc (nm, v)) lastV
          | _, _ => .error .fatal

end

/-! ## Framing (`bshark/parser.py` `parse_out`, `bshark/parcel.py`
`OutgoingMessage`) -/

/-- `Parser.parse_out`: the method's entire body is a bare `pass`, so it
returns `None` for every interface definition, transaction code and
stream. -/
def parse_out (_bdef : BinderDef) (_code : Int) (_s : PStream) : Option Ctx :=
  none

/-- An unpacked `OutgoingMessage`: the externally supplied descriptor,
the 32-bit error code, and — only when the error code is 0 — the result
of handing the remaining bytes to the parser with direction `OUT`
(`Parser.__unpack__` dispatches that to `parse_out`). -/
structure OutgoingMessage where
  descriptor : String
  error_code : Int
  payload : Option (Option Ctx)
deriving Repr

/-- Unpacking an `OutgoingMessage` for an already-compiled binder
definition: read `error_code`, and decode the rest through `parse_out`
only when it is 0. -/
def unpackOutgoing (bdef : BinderDef) (code : Int) (descriptor : String)
    (s : PStream) : Option OutgoingMessage := do
  let (ec, s1) ← readInt s
  if ec = 0 then pure ⟨descriptor, ec, some (parse_out bdef code s1)⟩
  else pure ⟨descriptor, ec, none⟩

/-! ## Specification-side definitions and concrete instances -/

/-- The comparison the specification prescribes for a `ConditionDef`:
compare the value read for `call` against the constant `check` using the
operator `op` (given here for integer-valued reads, the case produced by
the `if (p.readInt() != 0)` idiom). Stated from the spec's words, for
comparison with the decoder's actual branch selection. -/
def specConditionOpHolds (op : String) (v checkVal : Int) : Bool :=
  match op with
  | "==" => v = checkVal
  | "!=" => v ≠ checkVal
  | "<" => v < checkVal
  | "<=" => v ≤ checkVal
  | ">" => v > checkVal
  | ">=" => v ≥ checkVal
  | _ => false

/-- Round-up of a stream position to a 4-byte boundary. -/
def alignUp4 (n : Nat) : Nat := n + (4 - n % 4) % 4

/-- The decoding of a selected `ConditionDef` branch: an absent branch is
iterated by `read_data` and raises, a present one is decoded into
`(name, value)` pairs. -/
def condBranchResult (env : DecodeEnv) (fuel : Nat) :
    Option (List Entry) → PStream → Except DErr (RDVal × PStream)
  | none, _ => .error .fatal
  | some fields, s => do
      let (pairs, s') ← condLoop env fuel fields s
      .ok (.pairs pairs, s')

/-- A compiled binder whose single method carries a two-entry retval list
(the `ReturnDef` followed by an `out` parameter). -/
def binderTwoRetval : BinderDef :=
  ⟨"com.test.IFoo", .strVal "BINDER",
    [⟨"g", 1, false,
      some [.ret ⟨"readInt"⟩, .param ⟨"b", "readIntVector", .OUT⟩],
      [⟨"x", "readLong", .IN⟩]⟩]⟩

/-- A compiled binder with a two-entry retval list for the outgoing-payload
claim. -/
def binderOutMethod : BinderDef :=
  ⟨"com.test.IBaz", .strVal "BINDER",
    [⟨"q", 1, false,
      some [.ret ⟨"readInt"⟩, .param ⟨"r", "readInt", .OUT⟩],
      []⟩]⟩

/-- A decoder environment with an empty cache on Android 11. -/
def envEmptyCache : DecodeEnv := ⟨11, fun _ => none⟩

/-- A condition whose operator is `==` against the constant `0`, with
distinguishable branches. -/
def condEqZero : Entry :=
  .cond "readInt" "0" "=="
    (some [.field "a" "readInt"]) (some [.field "b" "readInt"])

/-- A binder unit whose single oneway method has two `out` parameters. -/
def onewayTwoOut : CompUnit :=
  ⟨"com.test.IBar", .BINDER,
    [⟨"h", "void", "readVoid",
      [⟨"a", "out", "readInt"⟩, ⟨"b", "out", "readInt"⟩]⟩], none⟩

/-- An AIDL-declared parcelable unit (type `PARCELABLE`); the statement
walk result it would get as a Java parcelable is supplied but must not be
consulted. -/
def aidlParcelableUnit : CompUnit :=
  ⟨"com.test.Data", .PARCELABLE, [], some [.field "x" "readInt"]⟩

/-! ## Helper lemmas -/

theorem readBytes_eq_some {s : PStream} {n : Nat} {b : List Nat} {s' : PStream}
    (h : s.readBytes n = some (b, s')) :
    b = (s.data.drop s.pos).take n ∧ s' = ⟨s.data, s.pos + n⟩ ∧
      s.pos + n ≤ s.data.length := by
  unfold PStream.readBytes at h
  split at h
  · simp only [Option.some.injEq, Prod.mk.injEq] at h
    exact ⟨h.1.symm, h.2.symm, by assumption⟩
  · cases h

theorem readU32_eq_some {s : PStream} {v : Nat} {s' : PStream}
    (h : readU32 s = some (v, s')) :
    v = leNat ((s.data.drop s.pos).take 4) ∧ s' = ⟨s.data, s.pos + 4⟩ ∧
      s.pos + 4 ≤ s.data.length := by
  unfold readU32 at h
  cases hb : s.readBytes 4 with
  | none => rw [hb] at h; cases h
  | some p =>
      rw [hb] at h
      obtain ⟨b, s2⟩ := p
      obtain ⟨h1, h2, h3⟩ := readBytes_eq_some hb
      simp only [Option.map, Option.some.injEq, Prod.mk.injEq] at h
      exact ⟨by rw [← h.1, h1], by rw [← h.2, h2], h3⟩

theorem readU64_eq_some {s : PStream} {v : Nat} {s' : PStream}
    (h : readU64 s = some (v, s')) :
    v = leNat ((s.data.drop s.pos).take 8) ∧ s' = ⟨s.data, s.pos + 8⟩ ∧
      s.pos + 8 ≤ s.data.length := by
  unfold readU64 at h
  cases hb : s.readBytes 8 with
  | none => rw [hb] at h; cases h
  | some p =>
      rw [hb] at h
      obtain ⟨b, s2⟩ := p
      obtain ⟨h1, h2, h3⟩ := readBytes_eq_some hb
      simp only [Option.map, Option.some.injEq, Prod.mk.injEq] at h
      exact ⟨by rw [← h.1, h1], by rw [← h.2, h2], h3⟩

theorem readInt_eq_some {s : PStream} {v : Int} {s' : PStream}
    (h : readInt s = some (v, s')) :
    v = toSigned 32 (leNat ((s.data.drop s.pos).take 4)) ∧
      s' = ⟨s.data, s.pos + 4⟩ ∧ s.pos + 4 ≤ s.data.length := by
  unfold readInt at h
  cases hb : s.readBytes 4 with
  | none => rw [hb] at h; cases h
  | some p =>
      rw [hb] at h
      obtain ⟨b, s2⟩ := p
      obtain ⟨h1, h2, h3⟩ := readBytes_eq_some hb
      simp only [Option.map, Option.some.injEq, Prod.mk.injEq] at h
      exact ⟨by rw [← h.1, h1], by rw [← h.2, h2], h3⟩

theorem readN_length {α : Type} (f : PStream → Option (α × PStream)) :
    ∀ (k : Nat) (s : PStream) (l : List α) (s' : PStream),
      readN f k s = some (l, s') → l.length = k := by
  intro k
  induction k with
  | zero =>
      intro s l s' h
      simp only [readN, Option.some.injEq, Prod.mk.injEq] at h
      rw [← h.1]
      rfl
  | succ k ih =>
      intro s l s' h
      simp only [readN, bind, Option.bind_eq_some] at h
      obtain ⟨⟨x, s1⟩, _, h⟩ := h
      obtain ⟨⟨xs, s2⟩, h2, h3⟩ := h
      simp only [pure, Option.some.injEq, Prod.mk.injEq] at h3
      rw [← h3.1]
      simp [ih s1 xs s2 h2]

/-- The position after 4-byte alignment, when the data suffices. -/
theorem skipAlign4_pos (data : List Nat) (p : Nat) (h : alignUp4 p ≤ data.length) :
    ((⟨data, p⟩ : PStream).skipAlign 4).pos = alignUp4 p := by
  unfold alignUp4 at h ⊢
  unfold PStream.skipAlign
  dsimp only
  split
  · simp only [min_def]
    omega
  · dsimp only
    simp only [min_def]
    split <;> omega

/-- Bind on `Except` producing `ok` splits into two `ok` steps. -/
theorem exceptBind_eq_ok {ε α β : Type} {x : Except ε α} {f : α → Except ε β}
    {b : β} : x.bind f = .ok b ↔ ∃ a, x = .ok a ∧ f a = .ok b := by
  cases x <;> simp [Except.bind]

theorem parcelableN_length (env : DecodeEnv) (nm : String) :
    ∀ (k fuel : Nat) (s : PStream) (l : List Value) (s' : PStream),
      parcelableN env fuel nm k s = .ok (l, s') → l.length = k := by
  intro k
  induction k with
  | zero =>
      intro fuel s l s' h
      cases fuel <;>
        · simp only [parcelableN, Except.ok.injEq, Prod.mk.injEq] at h
          rw [← h.1]
          rfl
  | succ k ih =>
      intro fuel s l s' h
      cases fuel with
      | zero => simp [parcelableN] at h
      | succ fuel =>
          simp only [parcelableN, bind, exceptBind_eq_ok] at h
          obtain ⟨⟨x, s1⟩, _, h⟩ := h
          obtain ⟨⟨xs, s2⟩, h2, h3⟩ := h
          simp only [Except.ok.injEq, Prod.mk.injEq] at h3
          rw [← h3.1]
          simp [ih fuel s1 xs s2 h2]

/-! ## Claim theorems -/

/-- C1: the JSON round trip is not the identity on compiled binder
definitions. For a `BinderDef` whose method carries the two-entry retval
list `[ReturnDef readInt, ParameterDef b]`, `_load_binder_from_json`
re-initialises `retval` to a fresh empty list inside its loop over the
entries, so the round trip returns a definition whose retval holds only
the final entry (and whose `type` field holds the `Type.BINDER` enum
member where the compiled definition stored the string `"BINDER"`); the
result is not structurally equal to the input. -/
theorem roundTrip_drops_retval_entries :
    roundTripBinder binderTwoRetval =
      some ⟨"com.test.IFoo", .enumVal .BINDER,
        [⟨"g", 1, false,
          some [.param ⟨"b", "readIntVector", .OUT⟩],
          [⟨"x", "readLong", .IN⟩]⟩]⟩ ∧
    roundTripBinder binderTwoRetval ≠ some binderTwoRetval := by
  exact ⟨rfl, by decide⟩

/-- C2: `Parser.parse_out` has a bare `pass` as its body, so decoding an
OUT-direction payload returns `None` rather than a context binding the
method's retval entries — even for a compiled binder whose matching
method has a two-entry retval list, from an `OutgoingMessage` whose error
code is 0 and whose remaining bytes hold decodable values. -/
theorem parse_out_returns_none :
    parse_out binderOutMethod 1 ⟨[7, 0, 0, 0, 9, 0, 0, 0], 0⟩ = none ∧
    unpackOutgoing binderOutMethod 1 "com.test.IBaz"
        ⟨[0, 0, 0, 0, 7, 0, 0, 0, 9, 0, 0, 0], 0⟩ =
      some ⟨"com.test.IBaz", 0, some none⟩ := by
  exact ⟨rfl, rfl⟩

/-- C3 counterexample: for the condition `ConditionDef(readInt, check 0,
op ==)` on a stream whose next int is `0`, the spec-prescribed comparison
`0 == 0` holds, so the claim requires the consequence branch (binding
`a`); the decoder instead branches on `bool(0) = False` and decodes the
alternative, binding `b`. -/
theorem condition_ignores_op_counterexample :
    readDataD envEmptyCache 10 condEqZero ⟨[0, 0, 0, 0, 7, 0, 0, 0], 0⟩ =
      .ok (.pairs [("b", .vint 7)], ⟨[0, 0, 0, 0, 7, 0, 0, 0], 8⟩) ∧
    specConditionOpHolds "==" 0 0 = true := by
  exact ⟨rfl, rfl⟩

/-- C4: the extension fallback of `BaseLoader.import_` is unreachable:
`to_absolute` raises `FileNotFoundError` as soon as the `.aidl` candidate
exists under no search-path root, so a qualified name backed only by a
`.java` file fails instead of falling through to it; the `.aidl`
candidate is returned when it exists. (The loop's own
`os.path.exists` test can never be false after `to_absolute` succeeds.) -/
theorem import_ext_fallback_unreachable :
    importResolve ["/src/pkg/Foo.java"] ["/src"] "pkg.Foo" =
      .error (.fileNotFound "pkg/Foo.aidl") ∧
    importResolve ["/src/pkg/Foo.aidl", "/src/pkg/Foo.java"] ["/src"] "pkg.Foo" =
      .ok (some (.unitFile "pkg/Foo.aidl")) := by
  exact ⟨rfl, rfl⟩

/-- C5: for a oneway method with the two `out` parameters `a` and `b`,
`as_binder` resets `retval = []` on *each* out-parameter before
appending, so the compiled retval holds only the final parameter `b`
instead of `[a, b]`. -/
theorem oneway_retval_keeps_only_last_out :
    asBinder onewayTwoOut =
      .ok ⟨"com.test.IBar", .strVal "BINDER",
        [⟨"h", 1, true, some [.param ⟨"b", "readInt", .OUT⟩], []⟩]⟩ := by
  exact rfl

/-- C6 counterexample: for a `Unit` of type `PARCELABLE` (an AIDL
parcelable declared with a body), `Compiler.compile` raises `TypeError`
("not a supported type"), and `as_parcelable` returns a `ParcelableDef`
whose `fields` is still unset (`None`) — no `FieldDef` per declared field
is ever emitted. -/
theorem parcelable_aidl_not_enumerated :
    compileUnit aidlParcelableUnit = .error .typeError ∧
    asParcelable aidlParcelableUnit =
      .ok ⟨"com.test.Data", .strVal "PARCELABLE", none⟩ := by
  exact ⟨rfl, rfl⟩

/-- C6 amended: compiling a `PARCELABLE` unit is unsupported —
`Compiler.compile` raises `TypeError` for it, and `as_parcelable` yields
a `ParcelableDef` with `fields = None`; only `PARCELABLE_JAVA` units get
a field enumeration. -/
theorem parcelable_aidl_unsupported (u : CompUnit) (h : u.type = .PARCELABLE) :
    compileUnit u = .error .typeError ∧
    asParcelable u = .ok ⟨u.qname, .strVal "PARCELABLE", none⟩ := by
  constructor
  · simp only [compileUnit, h]
  · simp only [asParcelable, h, Ty.pyName]
    simp

/-- C6 amended, witness at a concrete `PARCELABLE` unit. -/
theorem parcelable_aidl_unsupported_witness :
    aidlParcelableUnit.type = Ty.PARCELABLE ∧
    (compileUnit aidlParcelableUnit = .error .typeError ∧
      asParcelable aidlParcelableUnit =
        .ok ⟨aidlParcelableUnit.qname, .strVal "PARCELABLE", none⟩) := by
  exact ⟨rfl, parcelable_aidl_unsupported aidlParcelableUnit rfl⟩

/-- C7 counterexample: a wildcard import over a directory listing
`A.aidl, B.json, C.txt` loads only `A.aidl` (here each loaded file is
tagged by its path): `B.json` is never handed to any loader, so the
result does not contain two units. -/
theorem wildcard_skips_json_counterexample :
    importWildcard (fun p => [p]) "foo/bar" ["A.aidl", "B.json", "C.txt"] =
      ["foo/bar/A.aidl"] := by
  exact rfl

/-- C7 amended: `_import_wildcard` loads exactly the `.aidl` files of the
directory through the AIDL loader and skips every other file — `.json`
files included: the result over any listing equals the result over its
`filteraidl` restriction, and over `A.aidl, B.json, C.txt` it is exactly
the AIDL units of `A.aidl`, whatever the loader returns per file. -/
theorem wildcard_loads_only_aidl {α : Type} (load : String → List α)
    (rpath : String) :
    (∀ listing, importWildcard load rpath listing =
      importWildcard load rpath (filteraidl listing)) ∧
    importWildcard load rpath ["A.aidl", "B.json", "C.txt"] =
      load (rpath ++ "/" ++ "A.aidl") := by
  constructor
  · intro listing
    simp [importWildcard, filteraidl, List.filter_filter]
  · have hf : filteraidl ["A.aidl", "B.json", "C.txt"] = ["A.aidl"] := by decide
    simp [importWildcard, hf]

/-- C8 counterexample: on the 8-byte stream
`00 00 00 00 | 00 00 | 00 00` the reported code-unit count is `len = 0`;
the decoder consumes the 4-byte length, the 2-byte NUL terminator and
2 padding bytes, leaving the position at 8 — not at
`alignUp4 (4 + 2*0) = 4` as the claim's accounting (`4 + 2*len`, then
pad) prescribes. -/
theorem readString_counterexample :
    readString ⟨[0, 0, 0, 0, 0, 0, 0, 0], 0⟩ =
      some ("", ⟨[0, 0, 0, 0, 0, 0, 0, 0], 8⟩) ∧
    alignUp4 (0 + 4 + 2 * 0) = 4 := by
  exact ⟨rfl, rfl⟩

/-- C3 amended: for a `ConditionDef` the decoder evaluates the `call`
verb against the stream and then selects `consequence` when the value
read is truthy and `alternative` otherwise; the stored `check` constant
and `op` operator are ignored entirely (replacing them changes nothing). -/
theorem condition_branches_on_truthiness (env : DecodeEnv) (fuel : Nat)
    (call chk op chk' op' : String) (cons alt : Option (List Entry))
    (s : PStream) :
    readDataD env (fuel + 1) (.cond call chk op cons alt) s =
      readDataD env (fuel + 1) (.cond call chk' op' cons alt) s ∧
    (∀ verb tyArg v s', splitCall call = .ok (verb, tyArg) →
      dispatchVerb env fuel verb tyArg s = .ok (v, s') →
      readDataD env (fuel + 1) (.cond call chk op cons alt) s =
        condBranchResult env fuel (if v.truthy then cons else alt) s') := by
  constructor
  · rfl
  · intro verb tyArg v s' h1 h2
    simp only [readDataD, h1, h2, bind, Except.bind, condBranchResult]
    cases hb : (if v.truthy = true then cons else alt) with
    | none => rfl
    | some fields => rfl

/-- C3 amended, witness: for `readInt` on a stream whose next int is 5
(truthy), the consequence branch is decoded whatever `check` and `op`
say. -/
theorem condition_branches_on_truthiness_witness :
    splitCall "readInt" = .ok ("readInt", none) ∧
    dispatchVerb envEmptyCache 9 "readInt" none ⟨[5, 0, 0, 0, 7, 0, 0, 0], 0⟩ =
      .ok (.vint 5, ⟨[5, 0, 0, 0, 7, 0, 0, 0], 4⟩) ∧
    readDataD envEmptyCache 10 condEqZero ⟨[5, 0, 0, 0, 7, 0, 0, 0], 0⟩ =
      condBranchResult envEmptyCache 9 (some [.field "a" "readInt"])
        ⟨[5, 0, 0, 0, 7, 0, 0, 0], 4⟩ := by
  exact ⟨rfl, rfl,
    (condition_branches_on_truthiness envEmptyCache 9 "readInt" "0" "==" "0" "=="
      (some [.field "a" "readInt"]) (some [.field "b" "readInt"])
      ⟨[5, 0, 0, 0, 7, 0, 0, 0], 0⟩).2 "readInt" none (.vint 5)
      ⟨[5, 0, 0, 0, 7, 0, 0, 0], 4⟩ rfl rfl⟩

/-- C8 amended: a successful `readString` leaves the position at
`alignUp4 (pos + 4 + (2*len + 2))` where `len` is the `uint32` code-unit
count read first: the 4-byte length prefix, `2*len` string bytes, the
2-byte NUL terminator, then padding to a 4-byte boundary. -/
theorem readString_consumes (s : PStream) (v : String) (s' : PStream)
    (lb : List Nat) (s1 : PStream)
    (hlen : s.readBytes 4 = some (lb, s1))
    (h : readString s = some (v, s'))
    (hroom : alignUp4 (s.pos + 4 + (2 * leNat lb + 2)) ≤ s.data.length) :
    s'.pos = alignUp4 (s.pos + 4 + (2 * leNat lb + 2)) := by
  obtain ⟨_, hs1, _⟩ := readBytes_eq_some hlen
  subst hs1
  simp only [readString, bind, Option.bind_eq_some] at h
  obtain ⟨⟨lb', s1'⟩, hp, h⟩ := h
  rw [hlen] at hp
  simp only [Option.some.injEq, Prod.mk.injEq] at hp
  obtain ⟨hlb, hs1'⟩ := hp
  subst hlb
  subst hs1'
  obtain ⟨⟨b2, t2⟩, hb2, h⟩ := h
  obtain ⟨_, ht2, _⟩ := readBytes_eq_some hb2
  subst ht2
  obtain ⟨cs, _, h⟩ := h
  simp only [pure, Option.some.injEq, Prod.mk.injEq] at h
  obtain ⟨_, hs'⟩ := h
  subst hs'
  have hpos : s.pos + 4 + (leNat lb * 2 + 2) = s.pos + 4 + (2 * leNat lb + 2) := by
    ring
  simp only [hpos]
  exact skipAlign4_pos s.data (s.pos + 4 + (2 * leNat lb + 2)) hroom

/-- C8 amended, witness: a one-code-unit string (`len = 1`): 4-byte
length, 2 string bytes, 2 terminator bytes, already aligned, final
position 8. -/
theorem readString_consumes_witness :
    (⟨[1, 0, 0, 0, 65, 0, 0, 0], 0⟩ : PStream).readBytes 4 =
      some ([1, 0, 0, 0], ⟨[1, 0, 0, 0, 65, 0, 0, 0], 4⟩) ∧
    readString ⟨[1, 0, 0, 0, 65, 0, 0, 0], 0⟩ =
      some ("A", ⟨[1, 0, 0, 0, 65, 0, 0, 0], 8⟩) ∧
    alignUp4 (0 + 4 + (2 * leNat [1, 0, 0, 0] + 2)) ≤ 8 ∧
    (⟨[1, 0, 0, 0, 65, 0, 0, 0], 8⟩ : PStream).pos =
      alignUp4 (0 + 4 + (2 * leNat [1, 0, 0, 0] + 2)) := by
  exact ⟨rfl, rfl, by decide,
    readString_consumes ⟨[1, 0, 0, 0, 65, 0, 0, 0], 0⟩ "A"
      ⟨[1, 0, 0, 0, 65, 0, 0, 0], 8⟩ [1, 0, 0, 0]
      ⟨[1, 0, 0, 0, 65, 0, 0, 0], 4⟩ rfl rfl (by decide)⟩

/-- C9: a successful `readStrongBinder` reads `type` and `flags` as u32
at offsets 0 and 4, `handle` and `cookie` as u64 at offsets 8 and 16, and
a trailing `status` u32 at offset 24 exactly when the configured Android
version is at least 10; on Android ≥ 10 (e.g. 11) it consumes exactly 28
bytes and populates all five fields, on Android < 10 it consumes 24 and
leaves `status` absent. -/
theorem readStrongBinder_layout (ver : Nat) (s : PStream) (fb : FlatBinder)
    (s' : PStream) (h : readStrongBinder ver s = some (fb, s')) :
    fb.btype = leNat ((s.data.drop s.pos).take 4) ∧
    fb.flags = leNat ((s.data.drop (s.pos + 4)).take 4) ∧
    fb.handle = leNat ((s.data.drop (s.pos + 8)).take 8) ∧
    fb.cookie = leNat ((s.data.drop (s.pos + 16)).take 8) ∧
    (fb.status.isSome ↔ 10 ≤ ver) ∧
    (10 ≤ ver →
      fb.status = some (leNat ((s.data.drop (s.pos + 24)).take 4)) ∧
      s'.pos = s.pos + 28) ∧
    (ver < 10 → fb.status = none ∧ s'.pos = s.pos + 24) := by
  simp only [readStrongBinder, bind, Option.bind_eq_some] at h
  obtain ⟨⟨ty, s1⟩, h1, h⟩ := h
  obtain ⟨⟨flags, s2⟩, h2, h⟩ := h
  obtain ⟨⟨handle, s3⟩, h3, h⟩ := h
  obtain ⟨⟨cookie, s4⟩, h4, h⟩ := h
  obtain ⟨hty, hs1, _⟩ := readU32_eq_some h1
  subst hs1
  obtain ⟨hflags, hs2, _⟩ := readU32_eq_some h2
  subst hs2
  obtain ⟨hhandle, hs3, _⟩ := readU64_eq_some h3
  subst hs3
  obtain ⟨hcookie, hs4, _⟩ := readU64_eq_some h4
  subst hs4
  have e8 : s.pos + 4 + 4 = s.pos + 8 := by omega
  have e16 : s.pos + 4 + 4 + 8 = s.pos + 16 := by omega
  have e24 : s.pos + 4 + 4 + 8 + 8 = s.pos + 24 := by omega
  rw [e8] at hhandle h4
  rw [e16] at hcookie h4 ⊢
  by_cases hv : ver > 9
  · simp only [hv, if_true, Option.bind_eq_some] at h
    obtain ⟨⟨status, s5⟩, h5, h⟩ := h
    rw [e24] at h5
    obtain ⟨hstatus, hs5, _⟩ := readU32_eq_some h5
    subst hs5
    simp only [pure, Option.some.injEq, Prod.mk.injEq] at h
    obtain ⟨hfb, hs'⟩ := h
    subst hfb
    subst hs'
    refine ⟨hty, hflags, hhandle, hcookie, ?_, ?_, ?_⟩
    · exact iff_of_true rfl (by omega)
    · intro _
      exact ⟨by rw [hstatus], by show s.pos + 24 + 4 = s.pos + 28; omega⟩
    · intro hlt
      omega
  · simp only [hv, if_false] at h
    simp only [pure, Option.some.injEq, Prod.mk.injEq] at h
    obtain ⟨hfb, hs'⟩ := h
    subst hfb
    subst hs'
    refine ⟨hty, hflags, hhandle, hcookie, ?_, ?_, ?_⟩
    · exact iff_of_false (by simp) (by omega)
    · intro hge
      omega
    · intro _
      exact ⟨rfl, by show s.pos + 16 + 8 = s.pos + 24; omega⟩

/-- C9, witness on Android 11: a 28-byte stream is consumed entirely and
all five fields are populated from the expected offsets. -/
theorem readStrongBinder_layout_witness :
    readStrongBinder 11 ⟨List.replicate 28 1, 0⟩ =
      some (⟨16843009, 16843009, 72340172838076673, 72340172838076673,
        some 16843009⟩, ⟨List.replicate 28 1, 28⟩) ∧
    ((10 ≤ 11 →
      (some 16843009 : Option Nat) =
        some (leNat (((List.replicate 28 1 : List Nat).drop (0 + 24)).take 4)) ∧
      (⟨List.replicate 28 1, 28⟩ : PStream).pos = 0 + 28)) := by
  refine ⟨rfl, ?_⟩
  exact (readStrongBinder_layout 11 ⟨List.replicate 28 1, 0⟩
    ⟨16843009, 16843009, 72340172838076673, 72340172838076673, some 16843009⟩
    ⟨List.replicate 28 1, 28⟩ rfl).2.2.2.2.2.1

/-- C10: for every vector read built on `_read_vector` (`readIntVector`,
`readStringVector` and the rest) and for `readParcelableVector`, the
4-byte length prefix is read as a *signed* 32-bit value `n`; a negative
`n` yields the empty list with nothing consumed past the prefix
(position advanced exactly 4), and on success the element read runs
exactly `max n 0` times. -/
theorem vector_negative_length {α : Type}
    (f : PStream → Option (α × PStream)) (s : PStream) (n : Int)
    (s1 : PStream) (h : readInt s = some (n, s1)) :
    (n < 0 → readVector f s = some ([], s1) ∧ s1.pos = s.pos + 4) ∧
    (∀ l s2, readVector f s = some (l, s2) → l.length = n.toNat) ∧
    (∀ env fuel nm l s2,
      readParcelableVectorD env (fuel + 1) nm s = .ok (l, s2) →
      l.length = n.toNat) ∧
    (∀ env fuel nm, n < 0 →
      readParcelableVectorD env (fuel + 1) nm s = .ok ([], s1)) := by
  obtain ⟨_, hs1, _⟩ := readInt_eq_some h
  have hneg : n < 0 → n.toNat = 0 := fun hn => Int.toNat_of_nonpos (le_of_lt hn)
  refine ⟨?_, ?_, ?_, ?_⟩
  · intro hn
    constructor
    · simp only [readVector, bind, Option.bind_eq_some]
      exact ⟨(n, s1), h, by simp [hneg hn, readN]⟩
    · rw [hs1]
  · intro l s2 hv
    simp only [readVector, bind, Option.bind_eq_some, h] at hv
    obtain ⟨⟨n', s1'⟩, hn', hrest⟩ := hv
    simp only [Option.some.injEq, Prod.mk.injEq] at hn'
    obtain ⟨hna, hnb⟩ := hn'
    subst hna
    subst hnb
    exact readN_length f n.toNat s1 l s2 hrest
  · intro env fuel nm l s2 hv
    simp only [readParcelableVectorD, bind, exceptBind_eq_ok, ofOption, h] at hv
    obtain ⟨⟨n', s1'⟩, hn', hrest⟩ := hv
    simp only [Except.ok.injEq, Prod.mk.injEq] at hn'
    obtain ⟨hna, hnb⟩ := hn'
    subst hna
    subst hnb
    exact parcelableN_length env nm n.toNat fuel s1 l s2 hrest
  · intro env fuel nm hn
    simp only [readParcelableVectorD, bind, exceptBind_eq_ok, ofOption, h]
    exact ⟨(n, s1), rfl, by simp [hneg hn, parcelableN]⟩

/-- C10, witness: a length prefix of -1 yields the empty list with the
position advanced exactly past the 4 prefix bytes, for both the generic
vector read (with `readInt` elements) and `readParcelableVector`. -/
theorem vector_negative_length_witness :
    readInt ⟨[255, 255, 255, 255, 1, 2, 3], 0⟩ =
      some (-1, ⟨[255, 255, 255, 255, 1, 2, 3], 4⟩) ∧
    (readVector readInt ⟨[255, 255, 255, 255, 1, 2, 3], 0⟩ =
        some ([], ⟨[255, 255, 255, 255, 1, 2, 3], 4⟩) ∧
      (⟨[255, 255, 255, 255, 1, 2, 3], 4⟩ : PStream).pos = 0 + 4) ∧
    readParcelableVectorD envEmptyCache 5 "com.test.Data"
        ⟨[255, 255, 255, 255, 1, 2, 3], 0⟩ =
      .ok ([], ⟨[255, 255, 255, 255, 1, 2, 3], 4⟩) := by
  have h := vector_negative_length readInt
    ⟨[255, 255, 255, 255, 1, 2, 3], 0⟩ (-1)
    ⟨[255, 255, 255, 255, 1, 2, 3], 4⟩ (by decide)
  exact ⟨by decide, h.1 (by decide),
    h.2.2.2 envEmptyCache 4 "com.test.Data" (by decide)⟩

end BShark
